import Mathlib

/-!
Shallow embedding of `PyForks/trailforks_region.py` (class `TrailforksRegion`).

The HTTP layer, the HTML parser and the dataframe library are external
collaborators; following the code, they are modelled as explicit inputs:

* a fetched page is its body `String`;
* `pd.read_html` on a ride-log page is a function `Nat → Except Unit (List Table)`
  (`.error` = any exception: network failure, "no tables found", parse failure);
* a parsed table is its column names plus its rows;
* `BeautifulSoup`-level navigation in `__get_region_info` is modelled from the
  point where the list items of the marked container have been located: each
  `<li>` item is passed as its HTML string, on which the code runs a regex;
* `exit(1)` and Python exceptions are `Except` layers.
-/

namespace PyForks

/-- Tests whether `pat` is an initial segment of `l`. -/
def startsWithSeq : List Char → List Char → Bool
  | [], _ => true
  | _ :: _, [] => false
  | p :: ps, c :: cs => p = c && startsWithSeq ps cs

/-- Tests whether `pat` occurs as a contiguous subsequence of `l`;
this is the `in` operator of Python on strings. -/
def occursIn (pat : List Char) : List Char → Bool
  | [] => startsWithSeq pat []
  | c :: cs => startsWithSeq pat (c :: cs) || occursIn pat cs

/-- The error-title marker `non_existant` of `is_valid_region`. -/
def errorTitle : String := "<title>Error</title>"

/-- The function `is_valid_region`, of the body of the fetched region page:
returns `false` iff the marker occurs in the body. -/
def is_valid_region (body : String) : Bool :=
  if occursIn errorTitle.data body.data then false else true

/-- A process exit: `exit(1)` after a `print`. -/
structure ExitCall where
  code : Nat
  msg : String
deriving DecidableEq, Repr

/-- The function `check_region`: on an invalid page body, prints a diagnostic naming the
region and exits the process with status 1. -/
def check_region (body region : String) : Except ExitCall Unit :=
  if is_valid_region body then .ok ()
  else .error ⟨1, "[!] " ++ region ++ " is not a valid Trailforks Region."⟩

/-- The character class `[aA-zZ]` of the repair regex in
`download_all_region_trails`: the ASCII range from `A` to `z`. -/
def inRepairClass (c : Char) : Bool :=
  'A' ≤ c && c ≤ 'z'

/-- The substitution `re.sub` of the repair pattern: left-to-right non-overlapping scan; a
class character immediately followed by a newline is matched and the whole
two-character match is replaced by `",`. -/
def cleanSub : List Char → List Char
  | [] => []
  | [c] => [c]
  | c :: d :: rest =>
    if inRepairClass c = true ∧ d = '\n' then '"' :: ',' :: cleanSub rest
    else c :: cleanSub (d :: rest)

/-- The `clean_data` text of `download_all_region_trails`. -/
def cleanData (raw : String) : String :=
  ⟨cleanSub raw.data⟩

/-- The function `download_all_region_trails`, of the region-page body (used
by `check_region`), the region slug, and the raw export text; `.ok s` means
the file `{region}_trail_listing.csv` is written with exact content `s`. -/
def download_all_region_trails (body region rawCsv : String) :
    Except ExitCall String :=
  match check_region body region with
  | .error e => .error e
  | .ok _ => .ok (cleanData rawCsv)

/-- A table parsed from an HTML page: its column names and its rows. -/
structure Table where
  cols : List String
  rows : List (List String)
deriving DecidableEq, Repr

/-- The record built by `__get_region_info`; `none` models a field still
holding its initial Python `None`. -/
structure RegionInfo where
  total_ridelogs : Option Nat
  unique_riders : Option Nat
  trails_ridden : Option Nat
  average_trails_per_ride : Option Nat
deriving DecidableEq, Repr

/-- The part of `str` before the LAST occurrence of `c`, or `none` when `c`
does not occur: the greedy `.*<` tail of the regex `>([0-9].*)<`. -/
def beforeLast (c : Char) : List Char → Option (List Char)
  | [] => none
  | x :: xs =>
    match beforeLast c xs with
    | some ys => some (x :: ys)
    | none => if x = c then some [] else none

/-- The group of the search regex of the item values: the leftmost position holding
`>` then a digit with some later `<`; the group runs greedily from the digit
to just before the last such `<`. `none` models the `AttributeError` raised
by `.groups()` on a failed search. -/
def regexGroupNum : List Char → Option (List Char)
  | [] => none
  | '>' :: d :: rest =>
    if d.isDigit then
      match beforeLast '<' rest with
      | some cap => some (d :: cap)
      | none => regexGroupNum (d :: rest)
    else regexGroupNum (d :: rest)
  | _ :: rest => regexGroupNum rest

/-- Comma removal, `.replace` of the comma by the empty string. -/
def stripCommas (l : List Char) : List Char :=
  l.filter (fun c => c ≠ ',')

/-- Python `int(s)` on the stripped group: succeeds on a nonempty digit
string (the group always starts with a digit, so no sign handling is
needed); `none` models the `ValueError`. -/
def parsePyInt (l : List Char) : Option Nat :=
  if !l.isEmpty && l.all Char.isDigit then
    some (l.foldl (fun a c => a * 10 + (c.toNat - '0'.toNat)) 0)
  else none

/-- The whole item-value extraction, search regex then comma strip then `int`:
`none` models any raised exception. -/
def extractItemValue (item : String) : Option Nat :=
  match regexGroupNum item.data with
  | none => none
  | some g => parsePyInt (stripCommas g)

/-- Positional field assignment `region_info[region_vars[i]] = v`; `none`
models the `IndexError` on `region_vars[i]` when `i ≥ 4`. -/
def assignField (ri : RegionInfo) (i : Nat) (v : Nat) : Option RegionInfo :=
  match i with
  | 0 => some { ri with total_ridelogs := some v }
  | 1 => some { ri with unique_riders := some v }
  | 2 => some { ri with trails_ridden := some v }
  | 3 => some { ri with average_trails_per_ride := some v }
  | _ => none

/-- The `for i, item in enumerate(list_items)` loop of `__get_region_info`. -/
def getRegionInfoLoop : RegionInfo → Nat → List String → Option RegionInfo
  | ri, _, [] => some ri
  | ri, i, item :: rest =>
    match extractItemValue item with
    | none => none
    | some v =>
      match assignField ri i v with
      | none => none
      | some ri2 => getRegionInfoLoop ri2 (i + 1) rest

/-- The method `__get_region_info`, of the HTML strings of the list items
found in the marked container; all four fields start as Python `None`.
`none` models a raised exception. -/
def getRegionInfo (listItems : List String) : Option RegionInfo :=
  getRegionInfoLoop ⟨none, none, none, none⟩ 0 listItems

/-- The page count `round(total_ridelogs/30)`: the builtin `round` of Python rounds halves to the
nearest even integer (modelled in exact arithmetic; `12345/30 = 411.5` and
every other quotient at stake is produced exactly by the float division). -/
def totalPagesOf (n : Nat) : Nat :=
  if n % 30 < 15 then n / 30
  else if 15 < n % 30 then n / 30 + 1
  else if (n / 30) % 2 = 0 then n / 30 else n / 30 + 1

/-- One iteration body of the page loop, inside the `try`:
`pd.read_html` already ran (its outcome is the argument); with two or more
tables every table without a `city` column is kept, with exactly one table
that table is kept unconditionally, and `tmp_df[0]` on an empty list raises
(`.error`). -/
def selectPageTables (fetched : Except Unit (List Table)) :
    Except Unit (List Table) :=
  match fetched with
  | .error e => .error e
  | .ok tmp =>
    if 2 ≤ tmp.length then
      .ok (tmp.filter (fun t => !(t.cols.contains "city")))
    else
      match tmp with
      | [] => .error ()
      | t :: _ => .ok [t]

/-- The `for i in range(1, total_pages + 1)` loop: `crawlPages fetch i k`
accumulates the selected tables of pages `i, i+1, …, i+k-1`, stopping (and
keeping what it has) at the first page whose fetch/select raises. -/
def crawlPages (fetch : Nat → Except Unit (List Table)) : Nat → Nat → List Table
  | _, 0 => []
  | i, k + 1 =>
    match selectPageTables (fetch i) with
    | .error _ => []
    | .ok sel => sel ++ crawlPages fetch (i + 1) k

/-- Concatenation `pd.concat(dataframes_list, axis=0, ignore_index=True)` followed by
`to_csv`: concatenates all rows in order and indexes them `0, 1, 2, …`;
`pd.concat` on an empty list raises (`.error`). -/
def concatIgnoreIndex (ts : List Table) : Except Unit (List (Nat × List String)) :=
  if ts.isEmpty then .error ()
  else .ok ((ts.map Table.rows).flatten.enum)

/-- The crawl of `download_all_region_ridelogs` after `check_region` and
`__get_region_info`: loop then concatenate. -/
def crawlResult (fetch : Nat → Except Unit (List Table)) (totalPages : Nat) :
    Except Unit (List (Nat × List String)) :=
  concatIgnoreIndex (crawlPages fetch 1 totalPages)

/-- One CSV line of `to_csv`: the fresh integer index, then the row cells. -/
def csvLine (r : Nat × List String) : String :=
  toString r.1 ++ "," ++ String.intercalate "," r.2

/-- Serialization `to_csv` of the consolidated table, as the byte content of the
written file: a deterministic serialization of the indexed rows. -/
def toCsvText (rows : List (Nat × List String)) : String :=
  String.intercalate "\n" (rows.map csvLine)

/-- The function `download_all_region_ridelogs`, of the region-page body,
the region slug, the statistics-page list items, and the per-page parse
outcomes. Outer `.error` = process exit from `check_region`; inner `.error`
= an uncaught Python exception (from `__get_region_info`, from
`None/30`, or from `pd.concat([])`); inner `.ok rows` = the file
`{region}_scraped_riders.csv` is written with the indexed rows. -/
def download_all_region_ridelogs (body region : String) (listItems : List String)
    (fetch : Nat → Except Unit (List Table)) :
    Except ExitCall (Except Unit (List (Nat × List String))) :=
  match check_region body region with
  | .error e => .error e
  | .ok _ =>
    match getRegionInfo listItems with
    | none => .ok (.error ())
    | some ri =>
      match ri.total_ridelogs with
      | none => .ok (.error ())
      | some n => .ok (crawlResult fetch (totalPagesOf n))

/-! ### Substring facts for the validity probe -/

theorem startsWithSeq_iff : ∀ (p l : List Char),
    startsWithSeq p l = true ↔ ∃ t, l = p ++ t
  | [], l => by simp [startsWithSeq]
  | p :: ps, [] => by simp [startsWithSeq]
  | p :: ps, c :: cs => by
    simp only [startsWithSeq, Bool.and_eq_true, decide_eq_true_eq]
    constructor
    · rintro ⟨rfl, h⟩
      obtain ⟨t, rfl⟩ := (startsWithSeq_iff ps cs).mp h
      exact ⟨t, rfl⟩
    · rintro ⟨t, ht⟩
      injection ht with h1 h2
      subst h1
      exact ⟨rfl, (startsWithSeq_iff ps cs).mpr ⟨t, h2⟩⟩

theorem occursIn_iff : ∀ (pat l : List Char),
    occursIn pat l = true ↔ ∃ s t, l = s ++ pat ++ t
  | pat, [] => by
    rw [occursIn, startsWithSeq_iff]
    constructor
    · rintro ⟨t, ht⟩
      exact ⟨[], t, by simpa using ht⟩
    · rintro ⟨s, t, ht⟩
      rw [List.nil_eq, List.append_assoc, List.append_eq_nil] at ht
      obtain ⟨hp, htt⟩ := List.append_eq_nil.mp ht.2
      exact ⟨t, by simp [ht.1, hp, htt]⟩
  | pat, c :: cs => by
    rw [occursIn, Bool.or_eq_true, startsWithSeq_iff, occursIn_iff pat cs]
    constructor
    · rintro (⟨t, ht⟩ | ⟨s, t, ht⟩)
      · exact ⟨[], t, by simpa using ht⟩
      · exact ⟨c :: s, t, by simp [ht]⟩
    · rintro ⟨s, t, ht⟩
      cases s with
      | nil => exact Or.inl ⟨t, by simpa using ht⟩
      | cons a s' =>
        injection ht with h1 h2
        exact Or.inr ⟨s', t, h2⟩

/-- C5: `is_valid_region` returns `false` exactly when the fixed error-title
marker `"<title>Error</title>"` occurs as a contiguous substring of the
fetched page body, and `true` otherwise. -/
theorem is_valid_region_false_iff (body : String) :
    is_valid_region body = false ↔
      ∃ s t, body.data = s ++ errorTitle.data ++ t := by
  rw [← occursIn_iff]
  by_cases h : occursIn errorTitle.data body.data = true
  · simp [is_valid_region, h]
  · simp [is_valid_region, h]

/-! ### Region statistics extraction -/

/-- C7: on a statistics fragment whose container holds exactly the four list
items displaying `12,345`, `6,789`, `100`, `3`, `__get_region_info` strips
the comma separators, parses integers, and assigns the four values
positionally to `total_ridelogs`, `unique_riders`, `trails_ridden`,
`average_trails_per_ride`, in that fixed order. -/
theorem region_info_four_items_positional :
    getRegionInfo ["<li>12,345</li>", "<li>6,789</li>", "<li>100</li>", "<li>3</li>"]
      = some ⟨some 12345, some 6789, some 100, some 3⟩ := by
  decide

/-- C4 counterexample: a marked container with only three (well-formed) list
items does NOT make `__get_region_info` fail: it returns a record whose
`average_trails_per_ride` field is still the initial `None`. -/
theorem region_info_three_items_kept :
    getRegionInfo ["<li>1</li>", "<li>2</li>", "<li>3</li>"]
        = some ⟨some 1, some 2, some 3, none⟩ ∧
      getRegionInfo ["<li>1</li>", "<li>2</li>", "<li>3</li>"] ≠ none := by
  decide

/-! ### Pagination arithmetic -/

/-- C8: the page count is `round(total_ridelogs/30)` — a nearest-integer
rounding (the result is always within 15 rows of `total_ridelogs`, i.e. half
a page), not a ceiling (at `total_ridelogs = 31` the ceiling would be 2 but
the computed count is 1); for `total_ridelogs = 12345` it equals 412. -/
theorem total_pages_rounding :
    totalPagesOf 12345 = 412 ∧
      (∀ n, n ≤ 30 * totalPagesOf n + 15 ∧ 30 * totalPagesOf n ≤ n + 15) ∧
      totalPagesOf 31 = 1 ∧ totalPagesOf 31 ≠ (31 + 29) / 30 := by
  refine ⟨by decide, ?_, by decide, by decide⟩
  intro n
  have h1 := Nat.div_add_mod n 30
  have h2 : n % 30 < 30 := Nat.mod_lt n (by norm_num)
  unfold totalPagesOf
  split_ifs <;> omega

/-! ### Trail-export repair -/

/-- C2 counterexample: on the raw text `"Name\nX"`, whose character before
the line break is the letter `e`, the repair produces `"Nam\",X"` — the
letter is consumed together with the break — so the output does not contain
`"Name\","` anywhere. -/
theorem trail_export_repair_drops_letter :
    cleanData "Name\nX" = "Nam\",X" ∧
      occursIn "Name\",".data (cleanData "Name\nX").data = false := by
  decide

theorem getRegionInfoLoop_none_of_extract :
    ∀ (items : List String) (ri : RegionInfo) (i : Nat),
      (∃ it ∈ items, extractItemValue it = none) →
      getRegionInfoLoop ri i items = none
  | [], ri, i => by rintro ⟨x, hx, -⟩; exact absurd hx (List.not_mem_nil x)
  | it :: rest, ri, i => by
    rintro ⟨x, hx, hnone⟩
    rcases List.mem_cons.mp hx with rfl | hmem
    · simp [getRegionInfoLoop, hnone]
    · cases hev : extractItemValue it with
      | none => simp [getRegionInfoLoop, hev]
      | some v =>
        cases has : assignField ri i v with
        | none => simp [getRegionInfoLoop, hev, has]
        | some ri2 =>
          simp only [getRegionInfoLoop, hev, has]
          exact getRegionInfoLoop_none_of_extract rest ri2 (i + 1) ⟨x, hmem, hnone⟩

theorem getRegionInfoLoop_short :
    ∀ (items : List String) (ri : RegionInfo) (i : Nat),
      i + items.length ≤ 3 → ri.average_trails_per_ride = none →
      getRegionInfoLoop ri i items = none ∨
        ∃ ri2, getRegionInfoLoop ri i items = some ri2 ∧
          ri2.average_trails_per_ride = none
  | [], ri, i => fun _ h => Or.inr ⟨ri, rfl, h⟩
  | it :: rest, ri, i => by
    intro hlen havg
    cases hev : extractItemValue it with
    | none => exact Or.inl (by simp [getRegionInfoLoop, hev])
    | some v =>
      have hi : i ≤ 2 := by simp only [List.length_cons] at hlen; omega
      have hassign : ∃ ri2, assignField ri i v = some ri2 ∧
          ri2.average_trails_per_ride = none := by
        interval_cases i <;> exact ⟨_, rfl, havg⟩
      obtain ⟨ri2, ha, h2⟩ := hassign
      have hrec := getRegionInfoLoop_short rest ri2 (i + 1)
        (by simp only [List.length_cons] at hlen; omega) h2
      simpa [getRegionInfoLoop, hev, ha] using hrec

/-- C4 amended: a non-numeric item value (a failed extraction) does make
`__get_region_info` raise, but a container with FEWER than four items does
not: the loop exits normally and the record comes back with its unassigned
trailing fields still `None` (partially populated), or fails only if some
present item is itself malformed. -/
theorem region_info_failure_modes (items : List String) :
    ((∃ it ∈ items, extractItemValue it = none) → getRegionInfo items = none) ∧
      (items.length < 4 →
        getRegionInfo items = none ∨
          ∃ ri, getRegionInfo items = some ri ∧
            ri.average_trails_per_ride = none) :=
  ⟨fun h => getRegionInfoLoop_none_of_extract items ⟨none, none, none, none⟩ 0 h,
   fun h => getRegionInfoLoop_short items ⟨none, none, none, none⟩ 0 (by omega) rfl⟩

theorem region_info_failure_modes_witness :
    (∃ it ∈ ["<li>x</li>"], extractItemValue it = none) ∧
      getRegionInfo ["<li>x</li>"] = none :=
  ⟨by decide, (region_info_failure_modes ["<li>x</li>"]).1 (by decide)⟩

theorem cleanSub_append (r : List Char) (hr : r.head? ≠ some '\n') :
    ∀ p, cleanSub (p ++ r) = cleanSub p ++ cleanSub r := by
  have H : ∀ N p, p.length ≤ N → cleanSub (p ++ r) = cleanSub p ++ cleanSub r := by
    intro N
    induction N with
    | zero =>
      intro p hp
      have hp0 : p = [] := List.eq_nil_of_length_eq_zero (Nat.le_zero.mp hp)
      subst hp0
      simp [cleanSub]
    | succ N ih =>
      intro p hp
      match p with
      | [] => simp [cleanSub]
      | [a] =>
        cases r with
        | nil => simp [cleanSub]
        | cons b rs =>
          have hb : ¬(inRepairClass a = true ∧ b = '\n') := by
            rintro ⟨-, rfl⟩
            exact hr rfl
          show cleanSub (a :: b :: rs) = cleanSub [a] ++ cleanSub (b :: rs)
          simp only [cleanSub, if_neg hb]
          rfl
      | a :: b :: p' =>
        show cleanSub (a :: b :: (p' ++ r)) = cleanSub (a :: b :: p') ++ cleanSub r
        by_cases hab : inRepairClass a = true ∧ b = '\n'
        · simp only [cleanSub, if_pos hab]
          have hih := ih p' (by simp only [List.length_cons] at hp; omega)
          simp [hih]
        · simp only [cleanSub, if_neg hab]
          have hih := ih (b :: p')
            (by simp only [List.length_cons] at hp ⊢; omega)
          rw [List.cons_append] at hih
          rw [hih]
          rfl
  intro p
  exact H p.length p le_rfl

/-- C2 amended: the repair pass of `download_all_region_trails` replaces a
repair-class character (in particular any letter) TOGETHER WITH the
following line break by the two characters `",` — the letter before the
break is removed, not preserved — and the written file equals the repaired
text exactly. -/
theorem trail_export_repair_replaces_pair (body region : String)
    (p s : List Char) (c : Char)
    (hv : is_valid_region body = true) (hc : inRepairClass c = true) :
    download_all_region_trails body region ⟨p ++ c :: '\n' :: s⟩
      = .ok ⟨cleanSub p ++ '"' :: ',' :: cleanSub s⟩ := by
  have hcne : c ≠ '\n' := by
    intro h
    subst h
    exact absurd hc (by decide)
  have h1 : cleanSub (p ++ c :: '\n' :: s)
      = cleanSub p ++ cleanSub (c :: '\n' :: s) :=
    cleanSub_append _ (by simp [hcne]) p
  have h2 : cleanSub (c :: '\n' :: s) = '"' :: ',' :: cleanSub s := by
    rw [cleanSub, if_pos ⟨hc, rfl⟩]
  simp [download_all_region_trails, check_region, hv, cleanData, h1, h2]

theorem trail_export_repair_replaces_pair_witness :
    is_valid_region "" = true ∧ inRepairClass 'e' = true ∧
      download_all_region_trails "" "r" ⟨['N', 'a', 'm'] ++ 'e' :: '\n' :: ['X']⟩
        = .ok ⟨cleanSub ['N', 'a', 'm'] ++ '"' :: ',' :: cleanSub ['X']⟩ :=
  ⟨by decide, by decide,
    trail_export_repair_replaces_pair "" "r" ['N', 'a', 'm'] ['X'] 'e'
      (by decide) (by decide)⟩

/-- C6: on an invalid region page, `check_region` exits the process with
status 1 (non-zero) and a diagnostic containing the region identifier; both
`download_all_region_trails` and `download_all_region_ridelogs` run this
check first, so on an invalid region they end in that same exit whatever
the export text or the page responses would have been — no export or crawl
logic runs. -/
theorem check_region_gates_downloads (body region : String)
    (h : is_valid_region body = false) :
    ∃ e : ExitCall,
      check_region body region = Except.error e ∧ e.code = 1 ∧ e.code ≠ 0 ∧
        (∃ s t, e.msg.data = s ++ region.data ++ t) ∧
        (∀ raw, download_all_region_trails body region raw = Except.error e) ∧
        (∀ items fetch,
          download_all_region_ridelogs body region items fetch
            = Except.error e) := by
  refine ⟨⟨1, "[!] " ++ region ++ " is not a valid Trailforks Region."⟩,
    ?_, rfl, one_ne_zero, ?_, ?_, ?_⟩
  · simp [check_region, h]
  · exact ⟨"[!] ".data, " is not a valid Trailforks Region.".data,
      by simp [String.data_append]⟩
  · intro raw
    simp [download_all_region_trails, check_region, h]
  · intro items fetch
    simp [download_all_region_ridelogs, check_region, h]

theorem check_region_gates_downloads_witness :
    is_valid_region "<title>Error</title>" = false ∧
      ∃ e : ExitCall,
        check_region "<title>Error</title>" "sq" = Except.error e ∧
          e.code = 1 ∧ e.code ≠ 0 ∧
          (∃ s t, e.msg.data = s ++ "sq".data ++ t) ∧
          (∀ raw, download_all_region_trails "<title>Error</title>" "sq" raw
            = Except.error e) ∧
          (∀ items fetch,
            download_all_region_ridelogs "<title>Error</title>" "sq" items fetch
              = Except.error e) :=
  ⟨by decide, check_region_gates_downloads "<title>Error</title>" "sq" (by decide)⟩

/-! ### Crawl-loop lemmas -/

theorem crawlPages_succ (fetch : Nat → Except Unit (List Table)) (i k : Nat)
    (sel : List Table) (h : selectPageTables (fetch i) = .ok sel) :
    crawlPages fetch i (k + 1) = sel ++ crawlPages fetch (i + 1) k := by
  simp only [crawlPages, h]

theorem crawlPages_error (fetch : Nat → Except Unit (List Table)) (i : Nat)
    (h : selectPageTables (fetch i) = .error ()) :
    ∀ m, crawlPages fetch i m = []
  | 0 => rfl
  | m + 1 => by simp only [crawlPages, h]

theorem crawlPages_split (fetch : Nat → Except Unit (List Table)) :
    ∀ (k i m : Nat),
      (∀ d, d < k → ∃ sel, selectPageTables (fetch (i + d)) = .ok sel) →
      crawlPages fetch i (k + m)
        = crawlPages fetch i k ++ crawlPages fetch (i + k) m
  | 0, i, m => by
    intro _
    simp [crawlPages]
  | k + 1, i, m => by
    intro hok
    obtain ⟨sel, hsel⟩ := hok 0 (Nat.succ_pos k)
    rw [Nat.add_zero] at hsel
    have hih := crawlPages_split fetch k (i + 1) m
      (fun d hd => by
        obtain ⟨s, hs⟩ := hok (d + 1) (by omega)
        exact ⟨s, by rw [show i + 1 + d = i + (d + 1) from by omega]; exact hs⟩)
    calc crawlPages fetch i (k + 1 + m)
        = crawlPages fetch i ((k + m) + 1) := by
          rw [show k + 1 + m = (k + m) + 1 from by omega]
      _ = sel ++ crawlPages fetch (i + 1) (k + m) :=
          crawlPages_succ fetch i (k + m) sel hsel
      _ = sel ++ (crawlPages fetch (i + 1) k ++ crawlPages fetch (i + 1 + k) m) := by
          rw [hih]
      _ = (sel ++ crawlPages fetch (i + 1) k) ++ crawlPages fetch (i + (k + 1)) m := by
          rw [List.append_assoc, show i + 1 + k = i + (k + 1) from by omega]
      _ = crawlPages fetch i (k + 1) ++ crawlPages fetch (i + (k + 1)) m := by
          rw [crawlPages_succ fetch i k sel hsel]

/-! ### The ride-log crawl -/

/-- C1: in the three-page scenario (page 1: one table with 30 rows, selected
unconditionally; page 2: two tables, only the one without a `city` column
selected; page 3: the fetch/parse raises), the consolidated output is
written and holds exactly page 1's 30 rows followed by page 2's non-`city`
rows, under a fresh contiguous 0-based index, with nothing from page 3 or
any later page (the page count past 3 is arbitrary). -/
theorem ridelog_crawl_three_page_scenario
    (body region : String) (items : List String) (ri : RegionInfo) (n : Nat)
    (t1 tcity tother : Table) (fetch : Nat → Except Unit (List Table))
    (hv : is_valid_region body = true)
    (hri : getRegionInfo items = some ri)
    (hn : ri.total_ridelogs = some n)
    (hp : 3 ≤ totalPagesOf n)
    (h1 : fetch 1 = .ok [t1]) (h30 : t1.rows.length = 30)
    (h2 : fetch 2 = .ok [tcity, tother] ∨ fetch 2 = .ok [tother, tcity])
    (hcity : tcity.cols.contains "city" = true)
    (hother : tother.cols.contains "city" = false)
    (h3 : selectPageTables (fetch 3) = .error ()) :
    download_all_region_ridelogs body region items fetch
        = .ok (.ok ((t1.rows ++ tother.rows).enum)) ∧
      ((t1.rows ++ tother.rows).enum).map Prod.fst
        = List.range (30 + tother.rows.length) := by
  constructor
  · have hs1 : selectPageTables (fetch 1) = .ok [t1] := by
      rw [h1]
      simp [selectPageTables]
    have hcity' : "city" ∈ tcity.cols := by simpa using hcity
    have hother' : "city" ∉ tother.cols := by simpa using hother
    have hs2 : selectPageTables (fetch 2) = .ok [tother] := by
      rcases h2 with h2 | h2 <;> rw [h2] <;>
        simp [selectPageTables, List.filter, hcity', hother']
    obtain ⟨m, hm⟩ := Nat.exists_eq_add_of_le hp
    have hcrawl : crawlPages fetch 1 (totalPagesOf n) = [t1, tother] := by
      rw [hm, show 3 + m = (2 + m) + 1 from by omega,
        crawlPages_succ fetch 1 (2 + m) [t1] hs1,
        show 2 + m = (1 + m) + 1 from by omega,
        crawlPages_succ fetch 2 (1 + m) [tother] hs2,
        crawlPages_error fetch 3 h3 (1 + m)]
      rfl
    simp only [download_all_region_ridelogs, check_region, hv, if_true, hri, hn]
    simp only [crawlResult, concatIgnoreIndex, hcrawl]
    simp
  · simp [List.enum_map_fst, h30]

theorem ridelog_crawl_three_page_scenario_witness :
    3 ≤ totalPagesOf 12345 ∧
      download_all_region_ridelogs "" "x"
          ["<li>12,345</li>", "<li>6,789</li>", "<li>100</li>", "<li>3</li>"]
          (fun i => if i = 1 then .ok [Table.mk ["rider"] (List.replicate 30 ["a"])]
            else if i = 2 then .ok [Table.mk ["city"] [["c"]], Table.mk ["rider"] [["b"], ["d"]]]
            else .error ())
        = .ok (.ok (((List.replicate 30 ["a"]) ++ [["b"], ["d"]]).enum)) := by
  refine ⟨by decide, ?_⟩
  exact (ridelog_crawl_three_page_scenario "" "x"
    ["<li>12,345</li>", "<li>6,789</li>", "<li>100</li>", "<li>3</li>"]
    ⟨some 12345, some 6789, some 100, some 3⟩ 12345
    (Table.mk ["rider"] (List.replicate 30 ["a"]))
    (Table.mk ["city"] [["c"]])
    (Table.mk ["rider"] [["b"], ["d"]])
    (fun i => if i = 1 then .ok [Table.mk ["rider"] (List.replicate 30 ["a"])]
      else if i = 2 then .ok [Table.mk ["city"] [["c"]], Table.mk ["rider"] [["b"], ["d"]]]
      else .error ())
    (by decide) (by decide) (by decide) (by decide) rfl (by decide)
    (Or.inl rfl) (by decide) (by decide) rfl).1

/-- C3 counterexample: when the exception hits the FIRST page, nothing has
been accumulated, the final `pd.concat` on the empty list itself raises, so
an error IS surfaced to the caller and no CSV is written — the claimed
"write the partial result, surface nothing" behaviour fails there. -/
theorem ridelog_crawl_error_first_page_raises :
    crawlResult (fun _ => Except.error ()) 1 = Except.error () := rfl

/-- C3 amended: an exception at page `j` stops the loop for all remaining
pages (the result does not depend on any page past `j`), and the tables
accumulated from pages `1..j-1` are written as the output CSV with no error
surfaced — PROVIDED that accumulation is nonempty; with an empty
accumulation the final concatenation raises instead. -/
theorem ridelog_crawl_error_keeps_accumulated
    (fetch : Nat → Except Unit (List Table)) (total j : Nat)
    (hj1 : 1 ≤ j) (hjt : j ≤ total)
    (herr : selectPageTables (fetch j) = .error ())
    (hok : ∀ k, 1 ≤ k → k < j → ∃ sel, selectPageTables (fetch k) = .ok sel)
    (hne : crawlPages fetch 1 (j - 1) ≠ []) :
    crawlResult fetch total
      = .ok (((crawlPages fetch 1 (j - 1)).map Table.rows).flatten.enum) := by
  have hsplit := crawlPages_split fetch (j - 1) 1 (total - (j - 1))
    (fun d hd => hok (1 + d) (by omega) (by omega))
  rw [show (j - 1) + (total - (j - 1)) = total from by omega,
    show 1 + (j - 1) = j from by omega] at hsplit
  rw [crawlPages_error fetch j herr, List.append_nil] at hsplit
  simp only [crawlResult, concatIgnoreIndex, hsplit]
  rw [if_neg (by simpa using hne)]

theorem ridelog_crawl_error_keeps_accumulated_witness :
    selectPageTables
        ((fun i => if i = 1 then Except.ok [Table.mk ["rider"] [["r"]]]
          else Except.error ()) 2) = Except.error () ∧
      crawlResult
          (fun i => if i = 1 then Except.ok [Table.mk ["rider"] [["r"]]]
            else Except.error ()) 5
        = Except.ok [(0, ["r"])] := by
  refine ⟨rfl, ?_⟩
  have h := ridelog_crawl_error_keeps_accumulated
    (fun i => if i = 1 then Except.ok [Table.mk ["rider"] [["r"]]]
      else Except.error ()) 5 2
    (by omega) (by omega) rfl
    (fun k hk1 hk2 => by
      have hk : k = 1 := by omega
      subst hk
      exact ⟨[Table.mk ["rider"] [["r"]]], rfl⟩)
    (by decide)
  rw [h]
  rfl

/-- C9: the crawl is a deterministic function of its remote inputs: two runs
whose page responses agree at every page produce the same consolidated
table and byte-identical serialized CSV text. -/
theorem ridelog_crawl_deterministic
    (f g : Nat → Except Unit (List Table)) (total : Nat)
    (h : ∀ i, f i = g i) :
    crawlResult f total = crawlResult g total ∧
      (crawlResult f total).map toCsvText
        = (crawlResult g total).map toCsvText := by
  have hfg : f = g := funext h
  subst hfg
  exact ⟨rfl, rfl⟩

theorem ridelog_crawl_deterministic_witness :
    crawlResult (fun _ => Except.ok [Table.mk ["rider"] [["a"]]]) 2
        = crawlResult
            (fun i => if 0 < i + 1 then Except.ok [Table.mk ["rider"] [["a"]]]
              else Except.error ()) 2 ∧
      (crawlResult (fun _ => Except.ok [Table.mk ["rider"] [["a"]]]) 2).map toCsvText
        = (crawlResult
            (fun i => if 0 < i + 1 then Except.ok [Table.mk ["rider"] [["a"]]]
              else Except.error ()) 2).map toCsvText :=
  ridelog_crawl_deterministic _ _ 2 (fun i => by simp)

/-- C10: when the ride-log total rounds to zero pages, the loop body never
runs (the accumulated list is `[]` whatever `fetch` would answer), and the
final `pd.concat` on that empty list raises — the call ends in an uncaught
exception and no CSV file is written. -/
theorem ridelog_crawl_zero_pages_raises
    (body region : String) (items : List String) (ri : RegionInfo) (n : Nat)
    (fetch : Nat → Except Unit (List Table))
    (hv : is_valid_region body = true)
    (hri : getRegionInfo items = some ri)
    (hn : ri.total_ridelogs = some n)
    (hz : totalPagesOf n = 0) :
    download_all_region_ridelogs body region items fetch = .ok (.error ()) ∧
      crawlPages fetch 1 (totalPagesOf n) = [] := by
  constructor
  · simp only [download_all_region_ridelogs, check_region, hv, if_true, hri, hn]
    rw [hz]
    rfl
  · rw [hz]
    rfl

theorem ridelog_crawl_zero_pages_raises_witness :
    totalPagesOf 10 = 0 ∧
      download_all_region_ridelogs "" "x"
          ["<li>10</li>", "<li>2</li>", "<li>3</li>", "<li>4</li>"]
          (fun _ => Except.error ())
        = .ok (.error ()) :=
  ⟨by decide,
    (ridelog_crawl_zero_pages_raises "" "x"
      ["<li>10</li>", "<li>2</li>", "<li>3</li>", "<li>4</li>"]
      ⟨some 10, some 2, some 3, some 4⟩ 10 (fun _ => Except.error ())
      (by decide) (by decide) (by decide) (by decide)).1⟩

end PyForks
